import Mathlib

/-!
Shallow embedding of the gcosmos consensus strategy
(gserver/internal/gsi/consensusstrategy.go) together with the pieces of the
data model it depends on.  Collaborator interfaces (app manager simulation,
mempool, dissemination provider, retrieval cache contents) are modelled as
explicit environment records, so every theorem quantifies over all behaviours
the Go interfaces allow.  Machine integers are modelled as Nat, with the
two-complement reinterpretation made explicit exactly where the Go code
performs a signed conversion.
-/

namespace GCosmos

/-- Transactions are opaque to the consensus strategy; only identity matters. -/
abbrev Tx := Nat

/-- The intermediate simulation state threaded between SimulateWithState calls
(corestore.WriterMap in the Go code) is opaque to the strategy. -/
abbrev SimState := Nat

/-- Public keys are opaque; the strategy only compares them for equality. -/
abbrev PubKey := Nat

/-- Models gcrypto PubKey.Equal called with a possibly-nil argument: a concrete
key never equals the nil interface value, otherwise keys compare by value. -/
def pubKeyEqualOpt (k : PubKey) (s : Option PubKey) : Bool :=
  match s with
  | none => false
  | some k2 => k = k2

/-- A validator as seen by the strategy: a public key and its voting power. -/
structure Validator where
  pubKey : PubKey
  power : Nat
deriving DecidableEq

/-- Vote summary handed to DecidePrecommit.  PrevoteBlockPower is a Go map
from block hash to power; a missing key reads as zero, which a total function
into Nat models directly. -/
structure VoteSummary where
  availablePower : Nat
  prevoteBlockPower : String → Nat
  mostVotedPrevoteHash : String

/-- Modelled from the spec: tmconsensus.ByzantineMajority lives in the external
gordian module and is not part of this repository tree.  The spec defines the
threshold as the least power strictly greater than two thirds of the available
power, which for naturals is 2*n/3 + 1. -/
def ByzantineMajority (n : Nat) : Nat := 2 * n / 3 + 1

/-- The threshold is exactly the strictly-more-than-two-thirds rule. -/
theorem byzantineMajority_le_iff (n p : Nat) :
    ByzantineMajority n ≤ p ↔ 2 * n < 3 * p := by
  unfold ByzantineMajority
  omega

/-- DecidePrecommit from consensusstrategy.go: precommit the most-prevoted
hash when its prevote power reaches the Byzantine majority of the available
power, otherwise precommit the empty value. -/
def DecidePrecommit (vs : VoteSummary) : String :=
  if ByzantineMajority vs.availablePower ≤ vs.prevoteBlockPower vs.mostVotedPrevoteHash then
    vs.mostVotedPrevoteHash
  else
    ""

/-- C1: DecidePrecommit returns the most-prevoted hash exactly when the
prevote power recorded for that hash meets or exceeds the Byzantine-majority
threshold, i.e. strictly more than two thirds of the available power, and
otherwise returns the empty value; with available power 100 a candidate with
prevote power 67 is precommitted while one with exactly 66 yields nil. -/
theorem DecidePrecommit_byzantine_threshold (vs : VoteSummary) :
    (ByzantineMajority vs.availablePower ≤ vs.prevoteBlockPower vs.mostVotedPrevoteHash ↔
      2 * vs.availablePower < 3 * vs.prevoteBlockPower vs.mostVotedPrevoteHash) ∧
    (2 * vs.availablePower < 3 * vs.prevoteBlockPower vs.mostVotedPrevoteHash →
      DecidePrecommit vs = vs.mostVotedPrevoteHash) ∧
    (¬ 2 * vs.availablePower < 3 * vs.prevoteBlockPower vs.mostVotedPrevoteHash →
      DecidePrecommit vs = "") ∧
    (vs.availablePower = 100 → vs.prevoteBlockPower vs.mostVotedPrevoteHash = 67 →
      DecidePrecommit vs = vs.mostVotedPrevoteHash) ∧
    (vs.availablePower = 100 → vs.prevoteBlockPower vs.mostVotedPrevoteHash = 66 →
      DecidePrecommit vs = "") := by
  refine ⟨byzantineMajority_le_iff _ _, ?_, ?_, ?_, ?_⟩
  · intro hlt
    unfold DecidePrecommit
    rw [if_pos ((byzantineMajority_le_iff _ _).mpr hlt)]
  · intro hge
    unfold DecidePrecommit
    rw [if_neg (fun hle => hge ((byzantineMajority_le_iff _ _).mp hle))]
  · intro h100 h67
    unfold DecidePrecommit
    rw [if_pos]
    rw [h100, h67]
    decide
  · intro h100 h66
    unfold DecidePrecommit
    rw [if_neg]
    rw [h100, h66]
    decide

/-- Witness for C1 at the spec examples: available power 100, a single
candidate hash with prevote power 67 is precommitted, with 66 nil results. -/
theorem DecidePrecommit_byzantine_threshold_witness :
    DecidePrecommit ⟨100, fun _ => 67, "A"⟩ = "A" ∧
    DecidePrecommit ⟨100, fun _ => 66, "B"⟩ = "" :=
  ⟨(DecidePrecommit_byzantine_threshold ⟨100, fun _ => 67, "A"⟩).2.2.2.1 rfl rfl,
   (DecidePrecommit_byzantine_threshold ⟨100, fun _ => 66, "B"⟩).2.2.2.2 rfl rfl⟩

/-! ## Proposer selection -/

/-- 2^64, the modulus of Go uint64 and the width of Go int on 64-bit targets. -/
def U64MOD : Nat := 18446744073709551616

/-- 2^63, the first uint64 value that reinterprets as a negative Go int. -/
def I64HALF : Nat := 9223372036854775808

/-- Go conversion int(x) of a uint64 value on a 64-bit target:
two-complement reinterpretation. -/
def toGoInt (n : Nat) : Int :=
  if n % U64MOD < I64HALF then ((n % U64MOD : Nat) : Int)
  else ((n % U64MOD : Nat) : Int) - (U64MOD : Int)

/-- Go int addition wraps around two-complement 64-bit. -/
def goIntAdd (a b : Int) : Int :=
  (a + b + (I64HALF : Int)) % (U64MOD : Int) - (I64HALF : Int)

/-- DefaultProposerSelection from consensusstrategy.go:
proposerIdx := (int(h) + int(r)) % len(valSet.Validators), then index into the
validator list.  Go % on int is truncated division, so a negative sum yields a
negative index.  A none result models a Go runtime panic: division by zero for
the empty validator list, or index out of range for a negative index. -/
def DefaultProposerSelection (h : Nat) (r : Nat) (validators : List Validator) :
    Option Validator :=
  if validators.length = 0 then
    none
  else
    let idx : Int := Int.tmod (goIntAdd (toGoInt h) (toGoInt (r % 4294967296)))
      (validators.length : Int)
    if hidx : 0 ≤ idx ∧ idx.toNat < validators.length then
      some (validators.get ⟨idx.toNat, hidx.2⟩)
    else
      none

/-- C5 counterexample: at height 2^63 (a legal uint64 height) with round 0 and
three validators, the Go conversion int(h) reinterprets the height as a
negative number, the truncated % yields index -2, and the indexing panics
(modelled as none) instead of returning the validator at (h+r) mod 3 = 2. -/
theorem DefaultProposerSelection_overflow_counterexample :
    DefaultProposerSelection I64HALF 0
      [Validator.mk 10 1, Validator.mk 11 1, Validator.mk 12 1] = none ∧
    (I64HALF + 0) % 3 = 2 := by
  constructor
  · decide
  · decide

/-- C5 amended: for every validator set with at least one validator and all
heights and rounds whose sum stays below 2^63 (so the Go int conversion and
addition do not overflow), DefaultProposerSelection returns the validator at
index (height + round) mod N, an index always in [0, N); for larger heights
the signed conversion can produce a negative index and the selection panics. -/
theorem DefaultProposerSelection_in_range (h r : Nat) (validators : List Validator)
    (hne : validators.length ≠ 0) (hr : r < 4294967296) (hsum : h + r < I64HALF) :
    ∃ hlt : (h + r) % validators.length < validators.length,
      DefaultProposerSelection h r validators =
        some (validators.get ⟨(h + r) % validators.length, hlt⟩) := by
  have hNpos : 0 < validators.length := Nat.pos_of_ne_zero hne
  refine ⟨Nat.mod_lt _ hNpos, ?_⟩
  have hhU : h % U64MOD = h := by
    apply Nat.mod_eq_of_lt
    unfold U64MOD
    unfold I64HALF at hsum
    omega
  have hrU : r % 4294967296 % U64MOD = r := by
    rw [Nat.mod_eq_of_lt hr]
    apply Nat.mod_eq_of_lt
    unfold U64MOD
    omega
  have hgh : toGoInt h = (h : Int) := by
    unfold toGoInt
    rw [hhU]
    rw [if_pos]
    unfold I64HALF at hsum ⊢
    omega
  have hgr : toGoInt (r % 4294967296) = (r : Int) := by
    unfold toGoInt
    rw [hrU]
    rw [if_pos]
    unfold I64HALF
    omega
  have hadd : goIntAdd (toGoInt h) (toGoInt (r % 4294967296)) = ((h + r : Nat) : Int) := by
    rw [hgh, hgr]
    unfold goIntAdd
    have hbound : ((h : Int) + (r : Int) + (I64HALF : Int)) % (U64MOD : Int) =
        (h : Int) + (r : Int) + (I64HALF : Int) := by
      apply Int.emod_eq_of_lt
      · positivity
      · unfold U64MOD
        unfold I64HALF at hsum ⊢
        push_cast
        omega
    rw [hbound]
    push_cast
    ring
  have htm : Int.tmod ((h + r : Nat) : Int) ((validators.length : Nat) : Int) =
      (((h + r) % validators.length : Nat) : Int) := by
    rw [Int.tmod_eq_emod (by positivity) (by positivity)]
    push_cast
    rfl
  unfold DefaultProposerSelection
  rw [if_neg hne]
  simp only [hadd, htm]
  rw [dif_pos]
  · congr 1
  · constructor
    · positivity
    · rw [Int.toNat_ofNat]
      exact Nat.mod_lt _ hNpos

/-- Witness for the amended C5 at height 10, round 0, two validators:
the selected proposer is the validator at index 0. -/
theorem DefaultProposerSelection_in_range_witness :
    DefaultProposerSelection 10 0 [Validator.mk 60 1, Validator.mk 40 1] =
      some (Validator.mk 60 1) := by
  obtain ⟨hlt, heq⟩ := DefaultProposerSelection_in_range 10 0
    [Validator.mk 60 1, Validator.mk 40 1] (by decide) (by decide) (by decide)
  rw [heq]
  rfl

/-! ## Proposal consideration -/

/-- A proposed header as consumed by ConsiderProposedBlocks and EnterRound.
height, dataID, hash, proposerPubKey and blockAnnDriver live on ph.Header;
round and proposalAnnDriver live on the ProposedHeader wrapper itself. -/
structure ProposedHeader where
  height : Nat
  round : Nat
  dataID : String
  hash : String
  proposerPubKey : PubKey
  blockAnnDriver : String
  proposalAnnDriver : String
deriving DecidableEq

/-- Modelled from the spec: an entry of the gsbd.RequestCache, which is not in
the repository tree.  It records whether the retrieval finished (the Ready
channel being closed) and, once ready, the decoded transaction batch. -/
structure BlockDataRequest where
  ready : Bool
  transactions : List Tx
deriving DecidableEq

/-- The reason value passed to ConsiderProposedBlocks.  The Go parameter is
ignored by the implementation (bound to the blank identifier), so its inner
structure is irrelevant; an opaque number models it. -/
abbrev ConsiderProposedBlocksReason := Nat

/-- Environment of collaborator behaviour observed by the consideration hook:
the data-ID codec parser, the request-cache contents, whether initiating a
background retrieval errors, the app-manager simulation entry points, the
block annotation decoder, the RFC3339 time parser and the current wall clock.
Simulate and SimulateWithState return none for an infrastructure
(state-access) error, some (some e, st) when the transaction result carries a
business-logic error, and some (none, st) on success with the new state. -/
structure StrategyEnv where
  parseDataID : String → Option (Nat × Nat × Nat × Nat × String)
  cacheGet : String → Option BlockDataRequest
  retrieveFails : String → Bool
  simulate : Tx → Option (Option String × SimState)
  simulateWithState : SimState → Tx → Option (Option String × SimState)
  decodeBlockAnn : String → Option String
  parseTime : String → Option Int
  now : Int

/-- Outcome of evaluating one candidate.  crash models the Go panic that an
out-of-range txs[0] access would raise; it is unreachable for well-formed
cache contents. -/
inductive CandResult
  | accept
  | skip
  | crash
deriving DecidableEq

/-- Overall result of the consideration hook. -/
inductive ConsiderResult
  | ok (hash : String)
  | notReady
  | crash
deriving DecidableEq

/-- The inner loop over txs[1:] of consensusstrategy.go: chain-simulate each
remaining transaction against the state from the previous step.  Returns false
when either a state-access failure or a transaction-validity failure occurs,
which in the Go code jumps to the next candidate via continue PH_LOOP. -/
def chainRemaining (env : StrategyEnv) : SimState → List Tx → Bool
  | _, [] => true
  | st, tx :: rest =>
    match env.simulateWithState st tx with
    | none => false
    | some (some _, _) => false
    | some (none, st2) => chainRemaining env st2 rest

/-- The block annotation checks at the tail of the candidate loop: decode the
header driver annotation, parse its RFC3339 time, and reject a time strictly
after the local clock. -/
def annotChecks (env : StrategyEnv) (ph : ProposedHeader) : CandResult :=
  match env.decodeBlockAnn ph.blockAnnDriver with
  | none => CandResult.skip
  | some timeS =>
    match env.parseTime timeS with
    | none => CandResult.skip
    | some bt => if env.now < bt then CandResult.skip else CandResult.accept

/-- One iteration of the PH_LOOP in ConsiderProposedBlocks, translated check
for check from the source.  The first component lists the background
retrievals initiated for this candidate as (dataID, proposal driver
annotation) pairs; the Retrieve error is only logged, so the result does not
consult retrieveFails. -/
def considerOne (env : StrategyEnv) (curH curR : Nat) (ph : ProposedHeader) :
    List (String × String) × CandResult :=
  -- const excluded = false; if excluded { continue }
  let excluded := false
  if excluded then ([], CandResult.skip)
  else if ph.height ≠ curH then ([], CandResult.skip)
  else if ph.round ≠ curR then ([], CandResult.skip)
  else
    match env.parseDataID ph.dataID with
    | none => ([], CandResult.skip)
    | some (h, r, nTxs, _, _) =>
      if h ≠ curH then ([], CandResult.skip)
      else if r ≠ curR then ([], CandResult.skip)
      else if nTxs ≠ 0 then
        match env.cacheGet ph.dataID with
        | none => ([(ph.dataID, ph.proposalAnnDriver)], CandResult.skip)
        | some bdr =>
          if !bdr.ready then ([], CandResult.skip)
          else
            match bdr.transactions with
            | [] => ([], CandResult.crash)
            | tx0 :: rest =>
              match env.simulate tx0 with
              | none => ([], CandResult.skip)
              | some (some _, _) => ([], CandResult.skip)
              | some (none, st) =>
                if chainRemaining env st rest then ([], annotChecks env ph)
                else ([], CandResult.skip)
      else ([], annotChecks env ph)

/-- The candidate scan: first accepted candidate wins, a crash aborts, and an
exhausted list reports ErrProposedBlockChoiceNotReady.  Retrieval requests of
every examined candidate accumulate in order. -/
def considerLoop (env : StrategyEnv) (curH curR : Nat) :
    List ProposedHeader → List (String × String) × ConsiderResult
  | [] => ([], ConsiderResult.notReady)
  | ph :: rest =>
    let one := considerOne env curH curR ph
    match one.2 with
    | CandResult.accept => (one.1, ConsiderResult.ok ph.hash)
    | CandResult.crash => (one.1, ConsiderResult.crash)
    | CandResult.skip =>
      let more := considerLoop env curH curR rest
      (one.1 ++ more.1, more.2)

/-- ConsiderProposedBlocks from consensusstrategy.go.  curH and curR are the
strategy fields recorded by EnterRound; the reason argument is bound to the
blank identifier in the source and therefore unused. -/
def ConsiderProposedBlocks (env : StrategyEnv) (curH curR : Nat)
    (phs : List ProposedHeader) (_reason : ConsiderProposedBlocksReason) :
    List (String × String) × ConsiderResult :=
  considerLoop env curH curR phs

/-- C10: the result of ConsiderProposedBlocks is independent of its reason
argument; the parameter is bound to the blank identifier in the source, so any
two invocations differing only in the reason value return the same hash and
the same error. -/
theorem ConsiderProposedBlocks_reason_irrelevant (env : StrategyEnv)
    (curH curR : Nat) (phs : List ProposedHeader)
    (r1 r2 : ConsiderProposedBlocksReason) :
    ConsiderProposedBlocks env curH curR phs r1 =
      ConsiderProposedBlocks env curH curR phs r2 := rfl

/-- The annotation checks never consult the retrieval-failure behaviour. -/
theorem annotChecks_retrieveFails (env : StrategyEnv) (f : String → Bool)
    (ph : ProposedHeader) :
    annotChecks { env with retrieveFails := f } ph = annotChecks env ph := by
  cases env
  unfold annotChecks
  rfl

/-- The simulation chain never consults the retrieval-failure behaviour. -/
theorem chainRemaining_retrieveFails (env : StrategyEnv) (f : String → Bool)
    (l : List Tx) :
    ∀ st, chainRemaining { env with retrieveFails := f } st l =
      chainRemaining env st l := by
  induction l with
  | nil =>
    intro st
    rfl
  | cons tx rest ih =>
    intro st
    show (match env.simulateWithState st tx with
      | none => false
      | some (some _, _) => false
      | some (none, st2) => chainRemaining { env with retrieveFails := f } st2 rest) =
      (match env.simulateWithState st tx with
      | none => false
      | some (some _, _) => false
      | some (none, st2) => chainRemaining env st2 rest)
    cases henv : env.simulateWithState st tx with
    | none => rfl
    | some p =>
      obtain ⟨o, st2⟩ := p
      cases o with
      | none => exact ih st2
      | some e => rfl

/-- Replacing the retrieval-failure behaviour leaves considerOne unchanged:
the Retrieve error is only logged in the source. -/
theorem considerOne_retrieveFails (env : StrategyEnv) (f : String → Bool)
    (curH curR : Nat) (ph : ProposedHeader) :
    considerOne { env with retrieveFails := f } curH curR ph =
      considerOne env curH curR ph := by
  unfold considerOne
  simp only [annotChecks_retrieveFails, chainRemaining_retrieveFails]

/-- Unfolding equation for the scan on a nonempty list. -/
theorem considerLoop_cons (env : StrategyEnv) (curH curR : Nat)
    (ph : ProposedHeader) (rest : List ProposedHeader) :
    considerLoop env curH curR (ph :: rest) =
      match (considerOne env curH curR ph).2 with
      | CandResult.accept => ((considerOne env curH curR ph).1, ConsiderResult.ok ph.hash)
      | CandResult.crash => ((considerOne env curH curR ph).1, ConsiderResult.crash)
      | CandResult.skip =>
        ((considerOne env curH curR ph).1 ++ (considerLoop env curH curR rest).1,
          (considerLoop env curH curR rest).2) := rfl

/-- Replacing the retrieval-failure behaviour leaves the whole scan
unchanged. -/
theorem considerLoop_retrieveFails (env : StrategyEnv) (f : String → Bool)
    (curH curR : Nat) (phs : List ProposedHeader) :
    considerLoop { env with retrieveFails := f } curH curR phs =
      considerLoop env curH curR phs := by
  induction phs with
  | nil => rfl
  | cons ph rest ih =>
    rw [considerLoop_cons, considerLoop_cons, considerOne_retrieveFails, ih]

/-- C4: for a candidate that reaches the data lookup (height, round and data
ID all match) with a nonzero transaction count, a cache miss initiates exactly
one background retrieval for its data ID carrying the proposal driver
annotation, and the scan moves to the next candidate; a failure of the
Retrieve call never changes the hook result; a record present but not ready
likewise defers the candidate with no retrieval; in both cases the candidate
is neither accepted nor rejected for good in that invocation. -/
theorem ConsiderProposedBlocks_defers_pending (env : StrategyEnv)
    (curH curR nTxs dl : Nat) (hs : String) (ph : ProposedHeader)
    (rest : List ProposedHeader) (reason : ConsiderProposedBlocksReason)
    (hH : ph.height = curH) (hR : ph.round = curR)
    (hParse : env.parseDataID ph.dataID = some (curH, curR, nTxs, dl, hs))
    (hn : nTxs ≠ 0) :
    (env.cacheGet ph.dataID = none →
      considerOne env curH curR ph =
        ([(ph.dataID, ph.proposalAnnDriver)], CandResult.skip) ∧
      (ConsiderProposedBlocks env curH curR (ph :: rest) reason).2 =
        (ConsiderProposedBlocks env curH curR rest reason).2 ∧
      (ConsiderProposedBlocks env curH curR (ph :: rest) reason).1 =
        (ph.dataID, ph.proposalAnnDriver) ::
          (ConsiderProposedBlocks env curH curR rest reason).1) ∧
    (∀ bdr, env.cacheGet ph.dataID = some bdr → bdr.ready = false →
      considerOne env curH curR ph = ([], CandResult.skip) ∧
      ConsiderProposedBlocks env curH curR (ph :: rest) reason =
        ConsiderProposedBlocks env curH curR rest reason) ∧
    (∀ f, ConsiderProposedBlocks { env with retrieveFails := f }
        curH curR (ph :: rest) reason =
      ConsiderProposedBlocks env curH curR (ph :: rest) reason) := by
  refine ⟨?_, ?_, ?_⟩
  · intro hmiss
    have hone : considerOne env curH curR ph =
        ([(ph.dataID, ph.proposalAnnDriver)], CandResult.skip) := by
      unfold considerOne
      simp [hH, hR, hParse, hn, hmiss]
    refine ⟨hone, ?_, ?_⟩
    · unfold ConsiderProposedBlocks
      rw [considerLoop_cons, hone]
    · unfold ConsiderProposedBlocks
      rw [considerLoop_cons, hone]
      simp
  · intro bdr hget hnr
    have hone : considerOne env curH curR ph = ([], CandResult.skip) := by
      unfold considerOne
      simp [hH, hR, hParse, hn, hget, hnr]
    refine ⟨hone, ?_⟩
    unfold ConsiderProposedBlocks
    rw [considerLoop_cons, hone]
    simp
  · intro f
    unfold ConsiderProposedBlocks
    exact considerLoop_retrieveFails env f curH curR (ph :: rest)

/-- Witness for C4: a concrete candidate whose data ID parses to one
transaction and is absent from the cache is deferred with exactly one
retrieval request carrying its proposal driver annotation. -/
theorem ConsiderProposedBlocks_defers_pending_witness :
    considerOne
      ⟨fun s => if s = "d1" then some (5, 0, 1, 9, "h") else none,
       fun _ => none, fun _ => true, fun _ => none, fun _ _ => none,
       fun _ => none, fun _ => none, 0⟩
      5 0 ⟨5, 0, "d1", "H1", 1, "ba", "drv"⟩ =
      ([("d1", "drv")], CandResult.skip) :=
  ((ConsiderProposedBlocks_defers_pending
      ⟨fun s => if s = "d1" then some (5, 0, 1, 9, "h") else none,
       fun _ => none, fun _ => true, fun _ => none, fun _ _ => none,
       fun _ => none, fun _ => none, 0⟩
      5 0 1 9 "h" ⟨5, 0, "d1", "H1", 1, "ba", "drv"⟩ [] 0
      rfl rfl (by decide) (by decide)).1 rfl).1

/-- An accepted candidate necessarily passed the annotation checks. -/
theorem considerOne_accept_annot (env : StrategyEnv) (curH curR : Nat)
    (ph : ProposedHeader) :
    (considerOne env curH curR ph).2 = CandResult.accept →
      annotChecks env ph = CandResult.accept := by
  unfold considerOne
  intro h
  repeat' split at h
  all_goals simp_all

/-- C9: a candidate whose block annotation claims a proposal time strictly
after the local clock at evaluation time is never accepted: its per-candidate
evaluation cannot produce accept, and any hash returned by the scan comes from
a candidate whose evaluation did produce accept. -/
theorem ConsiderProposedBlocks_rejects_future_time :
    (∀ (env : StrategyEnv) (curH curR : Nat) (ph : ProposedHeader)
        (ts : String) (bt : Int),
      env.decodeBlockAnn ph.blockAnnDriver = some ts →
      env.parseTime ts = some bt →
      env.now < bt →
      (considerOne env curH curR ph).2 ≠ CandResult.accept) ∧
    (∀ (env : StrategyEnv) (curH curR : Nat) (phs : List ProposedHeader)
        (reason : ConsiderProposedBlocksReason) (hsh : String),
      (ConsiderProposedBlocks env curH curR phs reason).2 = ConsiderResult.ok hsh →
      ∃ ph ∈ phs, ph.hash = hsh ∧ (considerOne env curH curR ph).2 = CandResult.accept) := by
  constructor
  · intro env curH curR ph ts bt hdec htime hfut hacc
    have hann := considerOne_accept_annot env curH curR ph hacc
    unfold annotChecks at hann
    simp only [hdec, htime, if_pos hfut] at hann
    exact CandResult.noConfusion hann
  · intro env curH curR phs reason hsh
    induction phs with
    | nil =>
      intro h
      exact ConsiderResult.noConfusion h
    | cons ph rest ih =>
      intro h
      unfold ConsiderProposedBlocks at h ih
      rw [considerLoop_cons] at h
      cases hc : (considerOne env curH curR ph).2 with
      | accept =>
        rw [hc] at h
        simp only [] at h
        exact ⟨ph, List.mem_cons_self _ _, (ConsiderResult.ok.inj h).symm ▸ rfl, hc⟩
      | crash =>
        rw [hc] at h
        exact ConsiderResult.noConfusion h
      | skip =>
        rw [hc] at h
        obtain ⟨ph2, hmem, hh, ha⟩ := ih h
        exact ⟨ph2, List.mem_cons_of_mem _ hmem, hh, ha⟩

/-- Witness for C9: a candidate that matches the round context with an empty
batch but whose annotation time 10 lies after the local clock 5 is not
accepted. -/
theorem ConsiderProposedBlocks_rejects_future_time_witness :
    (considerOne
      ⟨fun _ => some (3, 1, 0, 0, "z"), fun _ => none, fun _ => false,
       fun _ => none, fun _ _ => none, fun _ => some "t", fun _ => some 10, 5⟩
      3 1 ⟨3, 1, "id", "H", 2, "ba", "da"⟩).2 ≠ CandResult.accept :=
  ConsiderProposedBlocks_rejects_future_time.1
    ⟨fun _ => some (3, 1, 0, 0, "z"), fun _ => none, fun _ => false,
     fun _ => none, fun _ _ => none, fun _ => some "t", fun _ => some 10, 5⟩
    3 1 ⟨3, 1, "id", "H", 2, "ba", "da"⟩ "t" 10 rfl rfl (by decide)

/-- The batch-simulation check as one predicate: the first transaction
simulates against latest committed state and the rest chain against the
intermediate states.  The empty batch reads false: the source would fault on
txs[0] there, so it can never accept. -/
def simChainOK (env : StrategyEnv) : List Tx → Bool
  | [] => false
  | tx0 :: rest =>
    match env.simulate tx0 with
    | none => false
    | some (some _, _) => false
    | some (none, st) => chainRemaining env st rest

/-- The annotation checks as one predicate: the block annotation decodes, its
time parses, and the time is not in the future. -/
def annotOK (env : StrategyEnv) (ph : ProposedHeader) : Bool :=
  match env.decodeBlockAnn ph.blockAnnDriver with
  | none => false
  | some ts =>
    match env.parseTime ts with
    | none => false
    | some bt => if env.now < bt then false else true

/-- A candidate passes every check of the consideration algorithm: header
height and round match the round context, the data ID parses and embeds the
same height and round, a nonzero batch is cached, ready and simulates, and the
annotation carries a parsable non-future time. -/
def acceptable (env : StrategyEnv) (curH curR : Nat) (ph : ProposedHeader) : Bool :=
  (ph.height == curH) && (ph.round == curR) &&
  (match env.parseDataID ph.dataID with
   | none => false
   | some (h, r, nTxs, _, _) =>
     (h == curH) && (r == curR) &&
     ((nTxs == 0) || (match env.cacheGet ph.dataID with
        | none => false
        | some bdr => bdr.ready && simChainOK env bdr.transactions)) &&
     annotOK env ph)

/-- annotChecks decided by the annotOK predicate. -/
theorem annotChecks_eq (env : StrategyEnv) (ph : ProposedHeader) :
    annotChecks env ph =
      (if annotOK env ph then CandResult.accept else CandResult.skip) := by
  unfold annotChecks annotOK
  rcases hdec : env.decodeBlockAnn ph.blockAnnDriver with _ | ts
  · simp
  · rcases htime : env.parseTime ts with _ | bt
    · simp [htime]
    · by_cases hf : env.now < bt <;> simp [htime, hf]

/-- For well-formed cache contents (a ready record holds a nonempty batch),
one candidate evaluation is decided by the acceptable predicate and never
crashes. -/
theorem considerOne_snd_eq (env : StrategyEnv) (curH curR : Nat)
    (ph : ProposedHeader)
    (hwf : ∀ s bdr, env.cacheGet s = some bdr → bdr.ready = true →
      bdr.transactions ≠ []) :
    (considerOne env curH curR ph).2 =
      (if acceptable env curH curR ph then CandResult.accept else CandResult.skip) := by
  unfold considerOne acceptable
  by_cases hH : ph.height = curH
  · by_cases hR : ph.round = curR
    · rcases hp : env.parseDataID ph.dataID with _ | ⟨h1, r1, nTxs, dl, hs⟩
      · simp [hH, hR, hp]
      · by_cases h1H : h1 = curH
        · by_cases r1R : r1 = curR
          · by_cases hz : nTxs = 0
            · simp [hH, hR, hp, h1H, r1R, hz, annotChecks_eq]
            · rcases hg : env.cacheGet ph.dataID with _ | bdr
              · simp [hH, hR, hp, h1H, r1R, hz, hg]
              · by_cases hready : bdr.ready = true
                · rcases ht : bdr.transactions with _ | ⟨tx0, rest⟩
                  · exact absurd ht (hwf _ _ hg hready)
                  · rcases hsim : env.simulate tx0 with _ | ⟨o, st⟩
                    · simp [hH, hR, hp, h1H, r1R, hz, hg, hready, ht, hsim, simChainOK]
                    · cases o with
                      | some e =>
                        simp [hH, hR, hp, h1H, r1R, hz, hg, hready, ht, hsim, simChainOK]
                      | none =>
                        by_cases hchain : chainRemaining env st rest = true
                        · simp [hH, hR, hp, h1H, r1R, hz, hg, hready, ht, hsim,
                            hchain, simChainOK, annotChecks_eq]
                        · simp [hH, hR, hp, h1H, r1R, hz, hg, hready, ht, hsim,
                            hchain, simChainOK]
                · simp [hH, hR, hp, h1H, r1R, hz, hg, hready]
          · simp [hH, hR, hp, h1H, r1R]
        · simp [hH, hR, hp, h1H]
    · simp [hH, hR]
  · simp [hH]

/-- C2: the scan evaluates candidates in list order and returns the header
hash of the first candidate passing every check, with no comparison among
candidates; when no candidate is accepted it reports the distinguished
not-ready condition.  The cache well-formedness hypothesis reflects that a
ready retrieval record always carries its decoded batch. -/
theorem ConsiderProposedBlocks_first_acceptable (env : StrategyEnv)
    (curH curR : Nat) (phs : List ProposedHeader)
    (reason : ConsiderProposedBlocksReason)
    (hwf : ∀ s bdr, env.cacheGet s = some bdr → bdr.ready = true →
      bdr.transactions ≠ []) :
    (ConsiderProposedBlocks env curH curR phs reason).2 =
      match phs.find? (fun ph => acceptable env curH curR ph) with
      | some ph => ConsiderResult.ok ph.hash
      | none => ConsiderResult.notReady := by
  induction phs with
  | nil => rfl
  | cons ph rest ih =>
    unfold ConsiderProposedBlocks at ih ⊢
    rw [considerLoop_cons]
    have hone := considerOne_snd_eq env curH curR ph hwf
    by_cases hacc : acceptable env curH curR ph = true
    · rw [hacc, if_pos rfl] at hone
      rw [hone, List.find?_cons_of_pos _ hacc]
    · have hacc2 : acceptable env curH curR ph = false := by
        revert hacc
        cases acceptable env curH curR ph <;> simp
      rw [hacc2, if_neg (by simp)] at hone
      rw [hone, List.find?_cons_of_neg _ (by simp [hacc2])]
      exact ih

/-- Witness for C2: in a two-candidate list where the first candidate is
deferred on a cache miss and the second has an empty batch with a valid
past-time annotation, the hook returns the hash of the second candidate. -/
theorem ConsiderProposedBlocks_first_acceptable_witness :
    (ConsiderProposedBlocks
      ⟨fun s => if s = "e" then some (7, 2, 0, 0, "z") else some (7, 2, 1, 4, "w"),
       fun _ => none, fun _ => false, fun _ => none, fun _ _ => none,
       fun _ => some "t", fun _ => some 4, 9⟩
      7 2 [⟨7, 2, "d", "H1", 1, "ba", "da"⟩, ⟨7, 2, "e", "H2", 1, "ba", "da"⟩] 0).2 =
      ConsiderResult.ok "H2" := by
  rw [ConsiderProposedBlocks_first_acceptable
    ⟨fun s => if s = "e" then some (7, 2, 0, 0, "z") else some (7, 2, 1, 4, "w"),
     fun _ => none, fun _ => false, fun _ => none, fun _ _ => none,
     fun _ => some "t", fun _ => some 4, 9⟩
    7 2 [⟨7, 2, "d", "H1", 1, "ba", "da"⟩, ⟨7, 2, "e", "H2", 1, "ba", "da"⟩] 0
    (fun s bdr hget => by exact Option.noConfusion hget)]
  decide

/-- The chained-simulation relation of the specification: starting from state
st, every transaction in the list is simulated in order with
SimulateWithState, each against the intermediate state returned by the
previous step, with neither a state-access failure nor a transaction-validity
failure. -/
inductive ValidChainFrom (env : StrategyEnv) : SimState → List Tx → Prop
  | nil : ∀ st, ValidChainFrom env st []
  | cons : ∀ st tx st2 rest, env.simulateWithState st tx = some (none, st2) →
      ValidChainFrom env st2 rest → ValidChainFrom env st (tx :: rest)

/-- The loop over txs[1:] decides exactly the chained-simulation relation. -/
theorem chainRemaining_iff (env : StrategyEnv) (l : List Tx) :
    ∀ st, chainRemaining env st l = true ↔ ValidChainFrom env st l := by
  induction l with
  | nil =>
    intro st
    exact ⟨fun _ => ValidChainFrom.nil st, fun _ => rfl⟩
  | cons tx rest ih =>
    intro st
    constructor
    · intro h
      unfold chainRemaining at h
      rcases hsim : env.simulateWithState st tx with _ | ⟨o, st2⟩
      · rw [hsim] at h
        exact Bool.noConfusion h
      · rw [hsim] at h
        cases o with
        | some e => exact Bool.noConfusion h
        | none => exact ValidChainFrom.cons st tx st2 rest hsim ((ih st2).mp h)
    · intro h
      cases h with
      | cons st tx st2 rest hsim hrest =>
        unfold chainRemaining
        rw [hsim]
        exact (ih st2).mpr hrest

/-- C3: for a candidate whose nonzero batch is cached and ready, acceptance
requires the first transaction to simulate against latest committed state and
every remaining transaction to chain-simulate, in order, against the state
from the previous step; if the chain fails at any position the whole candidate
is skipped and the scan continues with the next candidate of the list, so a
partially valid batch is never accepted. -/
theorem ConsiderProposedBlocks_chain_simulation (env : StrategyEnv)
    (curH curR nTxs dl : Nat) (hs : String) (ph : ProposedHeader)
    (rest : List ProposedHeader) (reason : ConsiderProposedBlocksReason)
    (bdr : BlockDataRequest) (tx0 : Tx) (txs : List Tx)
    (hH : ph.height = curH) (hR : ph.round = curR)
    (hParse : env.parseDataID ph.dataID = some (curH, curR, nTxs, dl, hs))
    (hn : nTxs ≠ 0)
    (hGet : env.cacheGet ph.dataID = some bdr)
    (hReady : bdr.ready = true)
    (hTxs : bdr.transactions = tx0 :: txs) :
    ((considerOne env curH curR ph).2 = CandResult.accept →
      ∃ st, env.simulate tx0 = some (none, st) ∧ ValidChainFrom env st txs) ∧
    ((¬ ∃ st, env.simulate tx0 = some (none, st) ∧ ValidChainFrom env st txs) →
      considerOne env curH curR ph = ([], CandResult.skip) ∧
      ConsiderProposedBlocks env curH curR (ph :: rest) reason =
        ConsiderProposedBlocks env curH curR rest reason) := by
  have hred : considerOne env curH curR ph =
      (match env.simulate tx0 with
       | none => ([], CandResult.skip)
       | some (some _, _) => ([], CandResult.skip)
       | some (none, st) =>
         if chainRemaining env st txs then ([], annotChecks env ph)
         else ([], CandResult.skip)) := by
    unfold considerOne
    simp [hH, hR, hParse, hn, hGet, hReady, hTxs]
  constructor
  · intro hacc
    rw [hred] at hacc
    rcases hsim : env.simulate tx0 with _ | ⟨o, st⟩
    · rw [hsim] at hacc
      exact CandResult.noConfusion hacc
    · rw [hsim] at hacc
      cases o with
      | some e => exact CandResult.noConfusion hacc
      | none =>
        by_cases hchain : chainRemaining env st txs = true
        · exact ⟨st, rfl, (chainRemaining_iff env txs st).mp hchain⟩
        · have hacc2 : (if chainRemaining env st txs = true then
              (([], annotChecks env ph) : List (String × String) × CandResult)
            else ([], CandResult.skip)).2 = CandResult.accept := hacc
          rw [if_neg hchain] at hacc2
          exact CandResult.noConfusion hacc2
  · intro hnot
    have hskip : considerOne env curH curR ph = ([], CandResult.skip) := by
      rw [hred]
      rcases hsim : env.simulate tx0 with _ | ⟨o, st⟩
      · rfl
      · cases o with
        | some e => rfl
        | none =>
          have hchain : ¬ chainRemaining env st txs = true := by
            intro hc
            exact hnot ⟨st, hsim, (chainRemaining_iff env txs st).mp hc⟩
          show (if chainRemaining env st txs = true then
              (([], annotChecks env ph) : List (String × String) × CandResult)
            else ([], CandResult.skip)) = ([], CandResult.skip)
          rw [if_neg hchain]
    refine ⟨hskip, ?_⟩
    unfold ConsiderProposedBlocks
    rw [considerLoop_cons, hskip]
    simp

/-- Witness for C3, the spec scenario: a three-transaction batch whose second
transaction is rejected by simulation causes the whole candidate to be
skipped, and the scan then accepts the later candidate with an all-valid
batch. -/
theorem ConsiderProposedBlocks_chain_simulation_witness :
    considerOne
      ⟨fun _ => some (2, 0, 3, 30, "w"),
       fun s => if s = "d" then some ⟨true, [1, 2, 3]⟩ else some ⟨true, [4]⟩,
       fun _ => false,
       fun tx => some (none, tx),
       fun st tx => if tx = 2 then some (some "invalid", st) else some (none, st + tx),
       fun _ => some "t", fun _ => some 0, 6⟩
      2 0 ⟨2, 0, "d", "H1", 1, "ba", "da"⟩ = ([], CandResult.skip) ∧
    (ConsiderProposedBlocks
      ⟨fun _ => some (2, 0, 3, 30, "w"),
       fun s => if s = "d" then some ⟨true, [1, 2, 3]⟩ else some ⟨true, [4]⟩,
       fun _ => false,
       fun tx => some (none, tx),
       fun st tx => if tx = 2 then some (some "invalid", st) else some (none, st + tx),
       fun _ => some "t", fun _ => some 0, 6⟩
      2 0 [⟨2, 0, "d", "H1", 1, "ba", "da"⟩, ⟨2, 0, "e", "H2", 1, "ba", "da"⟩] 0).2 =
      ConsiderResult.ok "H2" := by
  have hmain := ConsiderProposedBlocks_chain_simulation
    ⟨fun _ => some (2, 0, 3, 30, "w"),
     fun s => if s = "d" then some ⟨true, [1, 2, 3]⟩ else some ⟨true, [4]⟩,
     fun _ => false,
     fun tx => some (none, tx),
     fun st tx => if tx = 2 then some (some "invalid", st) else some (none, st + tx),
     fun _ => some "t", fun _ => some 0, 6⟩
    2 0 3 30 "w" ⟨2, 0, "d", "H1", 1, "ba", "da"⟩
    [⟨2, 0, "e", "H2", 1, "ba", "da"⟩] 0 ⟨true, [1, 2, 3]⟩ 1 [2, 3]
    rfl rfl (by decide) (by decide) (by decide) rfl rfl
  have hnot : ¬ ∃ st,
      (some (none, 1) : Option (Option String × SimState)) = some (none, st) ∧
      ValidChainFrom
        ⟨fun _ => some (2, 0, 3, 30, "w"),
         fun s => if s = "d" then some ⟨true, [1, 2, 3]⟩ else some ⟨true, [4]⟩,
         fun _ => false,
         fun tx => some (none, tx),
         fun st tx => if tx = 2 then some (some "invalid", st) else some (none, st + tx),
         fun _ => some "t", fun _ => some 0, 6⟩
        st [2, 3] := by
    rintro ⟨st, hsim, hchain⟩
    have hst : st = 1 := by
      have := Option.some.inj hsim
      exact (Prod.mk.injEq _ _ _ _ ▸ this).2.symm ▸ rfl
    subst hst
    cases hchain with
    | cons _ _ st2 _ hsim2 _ =>
      simp at hsim2
  obtain ⟨hskip, hmove⟩ := hmain.2 hnot
  refine ⟨hskip, ?_⟩
  rw [hmove]
  decide

/-! ## Round entry -/

/-- Modelled from the spec: the fixed hash of the empty input, precomputed by
dataid_generate.go with blake2b-256; the gsbd package itself is not in the
repository tree.  The canonical empty-batch identifier always ends in it. -/
def zeroHash : String :=
  "0e5751c026e543b2e8ab2eb06099daa1d1e5df47778f7787faab45cdf12fe3a8"

/-- Modelled from the spec: the value of the call gsbd.DataID(h, r, 0, nil)
made by EnterRound for an empty pending-transaction snapshot.  The wire format
is the colon-delimited text height:round:nTxs:dataLen:hexHash, and for the
empty batch the suffix is the fixed constant 0:0:zeroHash. -/
def emptyBatchDataID (h r : Nat) : String :=
  toString h ++ ":" ++ toString r ++ ":0:0:" ++ zeroHash

/-- The observable collaborator calls EnterRound makes, in program order:
taking the mempool snapshot, calling the dissemination provider, marking data
immediately available in the request cache, and handing the proposal to the
engine (dataID, block annotation bytes, optional proposal driver annotation
bytes). -/
inductive CSEvent
  | buffered (txs : List Tx)
  | provide (h r : Nat) (txs : List Tx)
  | cacheWrite (dataID : String) (txs : List Tx) (encoded : String)
  | send (dataID : String) (blockAnn : String) (driverAnn : Option String)
deriving DecidableEq

/-- Whether an event is the proposal handoff. -/
def isSendEvent : CSEvent → Bool
  | CSEvent.send _ _ _ => true
  | _ => false

/-- Whether an event is a SetImmediatelyAvailable write to the request
cache. -/
def isCacheWriteEvent : CSEvent → Bool
  | CSEvent.cacheWrite _ _ _ => true
  | _ => false

/-- Result of the dissemination Provide call: the data ID, the location
hints, and the canonical encoded bytes. -/
structure ProvideResult where
  dataID : String
  addrs : List String
  encoded : String
deriving DecidableEq

/-- How EnterRound returns: nil error, the wrapped Provide error, the
cancellation cause when the handoff is interrupted, or the Go panic on a nil
proposal channel without a prior own proposal. -/
inductive EnterRoundResult
  | ok
  | provideError
  | cancelled
  | panicked
deriving DecidableEq

/-- The round view handed to EnterRound: height, round, validator set and the
proposed headers already seen this round. -/
structure RoundView where
  height : Nat
  round : Nat
  validatorSet : List Validator
  proposedHeaders : List ProposedHeader
deriving DecidableEq

/-- Collaborator behaviour observed by EnterRound: the configured proposer
selection, the signer public key (none when the process has no signing
identity), the mempool snapshot, the dissemination provider (none modelling
its error), the marshalled block annotation, the proposal driver annotation
encoder, and whether the blocking handoff completes before cancellation. -/
structure EnterRoundEnv where
  proposerSelection : Nat → Nat → List Validator → Validator
  signerPubKey : Option PubKey
  buffered : List Tx
  provide : Nat → Nat → List Tx → Option ProvideResult
  blockAnnBytes : String
  encodeDriverAnn : List String → String
  sendSucceeds : Bool

/-- The hook outcome: the recorded round context, the ordered trace of
collaborator calls, and the return behaviour. -/
structure EnterRoundOutcome where
  curH : Nat
  curR : Nat
  events : List CSEvent
  result : EnterRoundResult
deriving DecidableEq

/-- EnterRound from consensusstrategy.go, translated statement by statement.
The source checks c.signerPubKey == nil with an empty then-branch, so the nil
case falls through to proposer selection; a concrete proposer key never
equals a nil signer, so weShouldPropose is false there. -/
def EnterRound (env : EnterRoundEnv) (rv : RoundView) (hasProposalOut : Bool) :
    EnterRoundOutcome :=
  -- c.curH = rv.Height; c.curR = rv.Round
  -- if c.signerPubKey == nil { }  (empty body in the source)
  let proposingVal := env.proposerSelection rv.height rv.round rv.validatorSet
  let weShouldPropose := pubKeyEqualOpt proposingVal.pubKey env.signerPubKey
  if !weShouldPropose then ⟨rv.height, rv.round, [], EnterRoundResult.ok⟩
  else if !hasProposalOut then
    if rv.proposedHeaders.any (fun ph => proposingVal.pubKey == ph.proposerPubKey) then
      ⟨rv.height, rv.round, [], EnterRoundResult.ok⟩
    else
      ⟨rv.height, rv.round, [], EnterRoundResult.panicked⟩
  else
    let pendingTxs := env.buffered
    if pendingTxs.isEmpty then
      ⟨rv.height, rv.round,
       [CSEvent.buffered pendingTxs,
        CSEvent.send (emptyBatchDataID rv.height rv.round) env.blockAnnBytes none],
       if env.sendSucceeds then EnterRoundResult.ok else EnterRoundResult.cancelled⟩
    else
      match env.provide rv.height rv.round pendingTxs with
      | none =>
        ⟨rv.height, rv.round,
         [CSEvent.buffered pendingTxs, CSEvent.provide rv.height rv.round pendingTxs],
         EnterRoundResult.provideError⟩
      | some res =>
        ⟨rv.height, rv.round,
         [CSEvent.buffered pendingTxs,
          CSEvent.provide rv.height rv.round pendingTxs,
          CSEvent.cacheWrite res.dataID pendingTxs res.encoded,
          CSEvent.send res.dataID env.blockAnnBytes
            (some (env.encodeDriverAnn res.addrs))],
         if env.sendSucceeds then EnterRoundResult.ok else EnterRoundResult.cancelled⟩

/-- C6: with no local signing identity the hook records the round context,
returns no error, and performs none of the proposal-construction steps: no
mempool snapshot, no dissemination call, no cache write, no handoff, and the
outcome does not depend on the proposal destination or on the prior proposed
headers. -/
theorem EnterRound_no_signer (env : EnterRoundEnv) (rv : RoundView)
    (hasOut : Bool) (hsig : env.signerPubKey = none) :
    EnterRound env rv hasOut = ⟨rv.height, rv.round, [], EnterRoundResult.ok⟩ := by
  unfold EnterRound
  simp [pubKeyEqualOpt, hsig]

/-- Witness for C6: a concrete round view with a nil signer stops with no
events and no error. -/
theorem EnterRound_no_signer_witness :
    EnterRound
      ⟨fun _ _ _ => Validator.mk 1 1, none, [7], fun _ _ _ => none, "ba",
       fun _ => "", true⟩
      ⟨9, 3, [Validator.mk 1 1], []⟩ false =
      ⟨9, 3, [], EnterRoundResult.ok⟩ :=
  EnterRound_no_signer
    ⟨fun _ _ _ => Validator.mk 1 1, none, [7], fun _ _ _ => none, "ba",
     fun _ => "", true⟩
    ⟨9, 3, [Validator.mk 1 1], []⟩ false rfl

/-- C7: when the local identity is the selected proposer and the proposal
destination is absent, the hook returns silently with no events exactly when
the round view already holds a proposed header authored by the local
identity; without such a prior proposal the outcome is the panic. -/
theorem EnterRound_nil_destination (env : EnterRoundEnv) (rv : RoundView)
    (k : PubKey) (hsig : env.signerPubKey = some k)
    (hprop : (env.proposerSelection rv.height rv.round rv.validatorSet).pubKey = k) :
    ((∃ ph ∈ rv.proposedHeaders, ph.proposerPubKey = k) →
      EnterRound env rv false = ⟨rv.height, rv.round, [], EnterRoundResult.ok⟩) ∧
    ((¬ ∃ ph ∈ rv.proposedHeaders, ph.proposerPubKey = k) →
      EnterRound env rv false =
        ⟨rv.height, rv.round, [], EnterRoundResult.panicked⟩) := by
  constructor
  · intro hex
    unfold EnterRound
    simp only [pubKeyEqualOpt, hsig, hprop]
    simp
    obtain ⟨ph, hmem, hk⟩ := hex
    exact ⟨ph, hmem, hk.symm⟩
  · intro hnone
    unfold EnterRound
    simp only [pubKeyEqualOpt, hsig, hprop]
    simp
    intro ph hmem hk
    exact hnone ⟨ph, hmem, hk.symm⟩

/-- Witness for C7: with a prior own proposal in the round view the hook stops
silently; the same configuration without it panics. -/
theorem EnterRound_nil_destination_witness :
    EnterRound
      ⟨fun _ _ _ => Validator.mk 5 1, some 5, [], fun _ _ _ => none, "ba",
       fun _ => "", true⟩
      ⟨2, 0, [Validator.mk 5 1], [⟨2, 0, "d", "H", 5, "ba", "da"⟩]⟩ false =
      ⟨2, 0, [], EnterRoundResult.ok⟩ ∧
    EnterRound
      ⟨fun _ _ _ => Validator.mk 5 1, some 5, [], fun _ _ _ => none, "ba",
       fun _ => "", true⟩
      ⟨2, 0, [Validator.mk 5 1], []⟩ false =
      ⟨2, 0, [], EnterRoundResult.panicked⟩ :=
  ⟨(EnterRound_nil_destination
      ⟨fun _ _ _ => Validator.mk 5 1, some 5, [], fun _ _ _ => none, "ba",
       fun _ => "", true⟩
      ⟨2, 0, [Validator.mk 5 1], [⟨2, 0, "d", "H", 5, "ba", "da"⟩]⟩ 5 rfl rfl).1
      ⟨⟨2, 0, "d", "H", 5, "ba", "da"⟩, List.mem_singleton_self _, rfl⟩,
   (EnterRound_nil_destination
      ⟨fun _ _ _ => Validator.mk 5 1, some 5, [], fun _ _ _ => none, "ba",
       fun _ => "", true⟩
      ⟨2, 0, [Validator.mk 5 1], []⟩ 5 rfl rfl).2
      (by rintro ⟨ph, hmem, hk⟩; exact (List.not_mem_nil ph) hmem)⟩

/-- C8 counterexample: a proposing round with an empty pending-transaction
snapshot hands the proposal to the engine (a send event occurs and the hook
returns nil) yet never writes the retrieval cache, so the claim that every
proposing invocation marks its identifier immediately available in the cache
fails on the empty batch. -/
theorem EnterRound_empty_batch_counterexample :
    (EnterRound
      ⟨fun _ _ _ => Validator.mk 1 1, some 1, [], fun _ _ _ => none, "ann",
       fun _ => "", true⟩
      ⟨4, 2, [Validator.mk 1 1], []⟩ true).events.any isSendEvent = true ∧
    (EnterRound
      ⟨fun _ _ _ => Validator.mk 1 1, some 1, [], fun _ _ _ => none, "ann",
       fun _ => "", true⟩
      ⟨4, 2, [Validator.mk 1 1], []⟩ true).events.any isCacheWriteEvent = false ∧
    (EnterRound
      ⟨fun _ _ _ => Validator.mk 1 1, some 1, [], fun _ _ _ => none, "ann",
       fun _ => "", true⟩
      ⟨4, 2, [Validator.mk 1 1], []⟩ true).result = EnterRoundResult.ok := by
  refine ⟨?_, ?_, ?_⟩ <;> decide

/-- C8 amended: when the local identity proposes with a destination present,
a nonempty snapshot is provided to the dissemination collaborator and its
data ID is marked immediately available in the cache with the exact
transaction list and the canonical encoded bytes, immediately before the
proposal handoff; an empty snapshot uses the canonical empty-batch identifier
with no dissemination call and no cache write. -/
theorem EnterRound_marks_before_send (env : EnterRoundEnv) (rv : RoundView)
    (k : PubKey) (hsig : env.signerPubKey = some k)
    (hprop : (env.proposerSelection rv.height rv.round rv.validatorSet).pubKey = k) :
    (env.buffered = [] →
      EnterRound env rv true =
        ⟨rv.height, rv.round,
         [CSEvent.buffered [],
          CSEvent.send (emptyBatchDataID rv.height rv.round) env.blockAnnBytes none],
         if env.sendSucceeds then EnterRoundResult.ok else EnterRoundResult.cancelled⟩) ∧
    (∀ res, env.provide rv.height rv.round env.buffered = some res →
      env.buffered ≠ [] →
      EnterRound env rv true =
        ⟨rv.height, rv.round,
         [CSEvent.buffered env.buffered,
          CSEvent.provide rv.height rv.round env.buffered,
          CSEvent.cacheWrite res.dataID env.buffered res.encoded,
          CSEvent.send res.dataID env.blockAnnBytes
            (some (env.encodeDriverAnn res.addrs))],
         if env.sendSucceeds then EnterRoundResult.ok else EnterRoundResult.cancelled⟩) := by
  constructor
  · intro hempty
    unfold EnterRound
    simp [pubKeyEqualOpt, hsig, hprop, hempty]
  · intro res hres hne
    unfold EnterRound
    simp [pubKeyEqualOpt, hsig, hprop, hres, List.isEmpty_iff, hne]

/-- Witness for the amended C8: a proposing round with one pending
transaction writes the cache entry for the provided data ID and then hands
the proposal over. -/
theorem EnterRound_marks_before_send_witness :
    EnterRound
      ⟨fun _ _ _ => Validator.mk 3 1, some 3, [5],
       fun _ _ _ => some ⟨"id5", ["addr"], "enc"⟩, "ann", fun _ => "drv", true⟩
      ⟨6, 1, [Validator.mk 3 1], []⟩ true =
      ⟨6, 1,
       [CSEvent.buffered [5],
        CSEvent.provide 6 1 [5],
        CSEvent.cacheWrite "id5" [5] "enc",
        CSEvent.send "id5" "ann" (some "drv")],
       EnterRoundResult.ok⟩ :=
  (EnterRound_marks_before_send
    ⟨fun _ _ _ => Validator.mk 3 1, some 3, [5],
     fun _ _ _ => some ⟨"id5", ["addr"], "enc"⟩, "ann", fun _ => "drv", true⟩
    ⟨6, 1, [Validator.mk 3 1], []⟩ 3 rfl rfl).2
    ⟨"id5", ["addr"], "enc"⟩ rfl (by decide)
